import Mathlib

/-!
# smcfancontrol: fan control daemon for the Mac Pro

A shallow embedding of `smcfancontrol.c` and the properties of its control loop:
the temperature to speed-step transfer function, the aggregation of sensor
readings, the fan writers, the hysteresis counters of the main loop and the
shutdown path.

Conventions of the embedding.

* A C `int` is a 32-bit signed integer and values are kept in `Int`.  The sums
  and differences of the aggregation and the fan speeds go through `wrap32`, as
  the machine instructions compute them.  C leaves a signed result that does not
  fit undefined, and a compiler is free to rewrite the multiply-then-divide of
  the transfer function; that function therefore uses checked operations and has
  no result (`none`) where C defines none.
* Files under sysfs are named by `Path`; what the daemon does to the outside
  world is recorded as a list of `Event`s, in program order.
* The outside world is an `Env`: for every poll it says what each sensor file
  holds (or that it cannot be opened), which files can be opened for writing and
  how the poll sleep ends.  Termination signals are delivered at the poll sleep.
  Pacing delays (`smc_write_delay`) carry no data and are left out.
* `daemonize`, the signal set-up and `create_pidfile` are process plumbing that
  runs before the control loop; the embedding starts right after them.
-/

namespace SmcFanControl

/-! ## C `int` arithmetic -/

/-- Reduction of an integer to the range of a 32-bit signed `int`. -/
def wrap32 (x : Int) : Int := (x + 2147483648) % 4294967296 - 2147483648

/-- C `a + b` on `int`. -/
def int_add (a b : Int) : Int := wrap32 (a + b)

/-- C `a - b` on `int`. -/
def int_sub (a b : Int) : Int := wrap32 (a - b)

/-- C `a * b` on `int`. -/
def int_mul (a b : Int) : Int := wrap32 (a * b)

/-- C `a / b` on `int`: the quotient is truncated toward zero. -/
def int_div (a b : Int) : Int := wrap32 (Int.tdiv a b)

/-! ## Configuration constants -/

def SPEED_STEP_MAX : Int := 20

def FANS : List Int := [1, 2, 3, 4]

def FANS_MIN : List Int := [1000, 1000, 1000, 1000]

def FANS_MAX : List Int := [2200, 2200, 2200, 2200]

def FANS_NUM : Nat := FANS.length

def SENSORS : List Int := [22]

def SENSORS_NUM : Nat := SENSORS.length

def EXIT_SUCCESS : Int := 0

def EXIT_FAILURE : Int := 1

/-! ## Transfer function -/

/-- An arithmetic result as C defines it: the exact value when it fits an `int`,
nothing when it does not (signed overflow is undefined behaviour). -/
def int_checked (x : Int) : Option Int :=
  if -2147483648 ≤ x ∧ x ≤ 2147483647 then some x else none

/-- Source lines 71-79: conversion of a temperature to a speed step.  The result
is `none` where `t - 70` or the product with `SPEED_STEP_MAX` does not fit an
`int`. -/
def temperature_to_speed_step (t : Int) : Option Int :=
  (int_checked (t - 70)).bind fun d =>
    (int_checked (d * SPEED_STEP_MAX)).bind fun p =>
      (int_checked (Int.tdiv p (80 - 70))).map fun step =>
        let step := if step < 0 then 0 else step
        let step := if step > SPEED_STEP_MAX then SPEED_STEP_MAX else step
        step

/-- The speed step `main` works with.  `main` calls the transfer function only
on temperatures that `get_sensors_temp` returned, and there it has a result; the
0 for the other temperatures only makes the loop functions total. -/
def speed_step_of (t : Int) : Int := (temperature_to_speed_step t).getD 0

/-- The order of two speed steps that both exist. -/
def step_le (a b : Option Int) : Prop := ∃ v1 v2, a = some v1 ∧ b = some v2 ∧ v1 ≤ v2

/-- The transfer function as the specification writes it, in exact integer
arithmetic: `clamp(((t - 70) * 20) / 10, 0, 20)` with truncating division. -/
def temperature_to_step_spec (t : Int) : Int :=
  max 0 (min 20 (Int.tdiv ((t - 70) * 20) 10))

/-! ## Files, events and the environment -/

/-- The sysfs files the daemon touches, by the `sprintf` format that names them. -/
inductive Path where
  | fan_min (fan : Int)
  | fan_manual (fan : Int)
  | temp_input (sensor : Int)
  deriving DecidableEq

/-- Observable actions of the daemon. -/
inductive Event where
  /-- The file was opened for writing and `fprintf(file, "%d", value)` ran. -/
  | fprintf (file : Path) (value : Int)
  /-- The file could not be opened for writing: `syslog(LOG_WARNING, ...)`. -/
  | syslog_warning (file : Path)
  /-- The sensor file could not be opened: `syslog(LOG_ERR, ...)`. -/
  | syslog_err (file : Path)
  /-- The log line `changed to speed step ...`. -/
  | syslog_info (speed_step t : Int)
  /-- The log line `exiting`. -/
  | syslog_notice
  | unlink_pidfile
  /-- The watchdog notification `sd_notify(0, "WATCHDOG=1")`. -/
  | sd_notify
  | exit (status : Int)
  deriving DecidableEq

/-- How the poll sleep `nanosleep(&sleep_period, NULL)` ends. -/
inductive SleepResult where
  /-- It returned 0, or a negative value with `errno == EINTR`. -/
  | elapsed
  /-- It returned a negative value with `errno != EINTR`. -/
  | failed
  /-- SIGTERM, SIGQUIT or SIGINT arrived and the handler `clean_exit` ran. -/
  | terminated
  deriving DecidableEq

/-- The outside world.  `fopen_r k s` is what `fscanf` reads from sensor `s` at
poll `k`, or `none` when the file cannot be opened; `fopen_w k p` says whether
`p` can be opened for writing during poll `k`. -/
structure Env where
  fopen_r : Nat → Int → Option Int
  fopen_w : Nat → Path → Bool
  nanosleep : Nat → SleepResult

/-! ## Fan writers -/

/-- Source line 110: the speed written for a fan with bounds `fan_min`, `fan_max`. -/
def fan_speed_of (fan_min fan_max speed_step : Int) : Int :=
  int_add fan_min (int_div (int_mul speed_step (int_sub fan_max fan_min)) SPEED_STEP_MAX)

/-- Source line 110 for fan number `i` of the configuration. -/
def fan_speed (i : Nat) (speed_step : Int) : Int :=
  fan_speed_of (FANS_MIN.getD i 0) (FANS_MAX.getD i 0) speed_step

/-- Source lines 99-122. -/
def set_fans_min (w : Path → Bool) (speed_step : Int) : List Event :=
  (List.range FANS_NUM).map fun i =>
    let speed := fan_speed i speed_step
    let fan_path := Path.fan_min (FANS.getD i 0)
    if w fan_path then Event.fprintf fan_path speed else Event.syslog_warning fan_path

/-- Source lines 126-145. -/
def set_fans_manual (w : Path → Bool) (value : Int) : List Event :=
  (List.range FANS_NUM).map fun i =>
    let fan_path := Path.fan_manual (FANS.getD i 0)
    if w fan_path then Event.fprintf fan_path value else Event.syslog_warning fan_path

/-- Source lines 83-89: the events of the shutdown routine, ending in `exit`. -/
def clean_exit_with_status (w : Path → Bool) (status : Int) : List Event :=
  set_fans_manual w 0 ++ [Event.syslog_notice, Event.unlink_pidfile, Event.exit status]

/-! ## Sensor aggregation -/

/-- Source lines 149-155: the comparison handed to `qsort`. -/
def compare_int_desc (a b : Int) : Int := int_sub b a

/-- Insertion of `x` into an array ordered by `cmp`. -/
def qsort_insert (cmp : Int → Int → Int) (x : Int) : List Int → List Int
  | [] => [x]
  | y :: ys => if cmp x y ≤ 0 then x :: y :: ys else y :: qsort_insert cmp x ys

/-- The library routine `qsort`, as an insertion sort driven by the comparison
function: `cmp a b ≤ 0` places `a` before `b`. -/
def qsort (cmp : Int → Int → Int) : List Int → List Int
  | [] => []
  | x :: xs => qsort_insert cmp x (qsort cmp xs)

/-- Source lines 185-189: sum and count of the first `min(2, N)` entries. -/
def sum_first_two (t : List Int) : Int × Int :=
  (t.take 2).foldl (fun acc x => (int_add acc.1 x, int_add acc.2 1)) (0, 0)

/-- Source lines 181-193: from the readings in millidegrees to whole degrees. -/
def sensors_average (t : List Int) : Int :=
  let sorted := qsort compare_int_desc t
  let (avg, cnt) := sum_first_two sorted
  let avg := int_div avg cnt
  int_div avg 1000

/-- A reading that is small enough for differences and sums of two readings to
fit an `int`. -/
def reading_fits (x : Int) : Prop := -1073741824 ≤ x ∧ x ≤ 1073741823

/-- The `min(2, N)` largest readings, in the exact order of the integers. -/
def largest_two (t : List Int) : List Int :=
  (t.insertionSort (fun a b => b ≤ a)).take 2

/-- The aggregate as the specification writes it: the floor of the arithmetic
mean of the `min(2, N)` largest readings, in whole degrees. -/
def floor_mean_spec (t : List Int) : Int :=
  ⌊((largest_two t).sum : ℚ) / ((largest_two t).length : ℚ) / 1000⌋

/-- The arithmetic mean of the `min(2, N)` largest readings in whole degrees,
rounded toward zero. -/
def trunc_mean_spec (t : List Int) : Int :=
  Int.tdiv (largest_two t).sum ((largest_two t).length * 1000)

/-- Source lines 167-179: the reading loop; the error is the first file that
cannot be opened. -/
def read_sensors (r : Int → Option Int) : List Int → Except Path (List Int)
  | [] => .ok []
  | s :: rest =>
    match r s with
    | none => .error (Path.temp_input s)
    | some v =>
      match read_sensors r rest with
      | .error p => .error p
      | .ok vs => .ok (v :: vs)

/-- Source lines 159-194.  On a sensor that cannot be opened the function does
not return: the result is then the list of events up to and including `exit`. -/
def get_sensors_temp (env : Env) (k : Nat) : Except (List Event) Int :=
  match read_sensors (env.fopen_r k) SENSORS with
  | .error p => .error (Event.syslog_err p :: clean_exit_with_status (env.fopen_w k) EXIT_FAILURE)
  | .ok t => .ok (sensors_average t)

/-! ## The main loop -/

/-- The variables of `main` that live across iterations. -/
structure LoopState where
  t_old : Int
  speed_step : Int
  old_speed_step : Int
  cold : Int
  hot : Int
  deriving DecidableEq

/-- Source lines 311-318: the state after the first aggregated reading `t`. -/
def loop_init (t : Int) : LoopState :=
  { t_old := t
    speed_step := speed_step_of t
    old_speed_step := speed_step_of t
    cold := 1
    hot := 1 }

/-- Source lines 334-337. -/
def count_colder (s : LoopState) (t : Int) : LoopState :=
  if t < s.t_old then { s with cold := int_add s.cold 1, hot := 0 } else s

/-- Source lines 338-341. -/
def count_hotter (s : LoopState) (t : Int) : LoopState :=
  if t > s.t_old then { s with hot := int_add s.hot 1, cold := 0 } else s

/-- Source line 343: the debounce condition. -/
def debounce (s : LoopState) : Bool := s.cold == 2 || s.hot == 2

/-- Whether the debounce condition holds on the tick that observes `t`. -/
def loop_fires (s : LoopState) (t : Int) : Bool :=
  debounce (count_hotter (count_colder s t) t)

/-- Source lines 343-355: the new state and, when `set_fans_min` is called, its
argument. -/
def apply_step (s : LoopState) (t : Int) : LoopState × Option Int :=
  if debounce s then
    let speed_step := speed_step_of t
    if speed_step != s.old_speed_step then
      ({ s with speed_step := speed_step, old_speed_step := speed_step, cold := 0, hot := 0 },
        some speed_step)
    else
      ({ s with speed_step := speed_step, cold := 0, hot := 0 }, none)
  else (s, none)

/-- Source lines 332-362: one iteration of the loop on the aggregated reading
`t`, up to and including `t_old = t`. -/
def loop_body (s : LoopState) (t : Int) : LoopState × Option Int :=
  let r := apply_step (count_hotter (count_colder s t) t) t
  ({ r.1 with t_old := t }, r.2)

/-- The state after the loop has observed the readings `ts`. -/
def loop_run (s : LoopState) : List Int → LoopState
  | [] => s
  | t :: ts => loop_run (loop_body s t).1 ts

/-- For each reading, whether the debounce condition held on its tick. -/
def loop_fire_log (s : LoopState) : List Int → List Bool
  | [] => []
  | t :: ts => loop_fires s t :: loop_fire_log (loop_body s t).1 ts

/-- The direction of the move from `t_old` to `t`: -1 colder, 1 hotter, 0 a tie. -/
def move (t_old t : Int) : Int :=
  if t < t_old then -1 else if t > t_old then 1 else 0

/-- The strict moves (ties dropped) of the readings `ts` observed after `t_old`. -/
def strict_moves (t_old : Int) : List Int → List Int
  | [] => []
  | t :: ts =>
    if move t_old t = 0 then strict_moves t ts else move t_old t :: strict_moves t ts

/-- Test that no two neighbours of a list of moves are equal. -/
def alternating_moves : List Int → Bool
  | a :: b :: l => a != b && alternating_moves (b :: l)
  | _ => true

/-- No two consecutive strict moves go in the same direction. -/
def alternating (moves : List Int) : Prop := alternating_moves moves = true

instance alternating_decidable (moves : List Int) : Decidable (alternating moves) :=
  inferInstanceAs (Decidable (alternating_moves moves = true))

/-- The log that marks the first reading different from `t0` and nothing else. -/
def first_move_log (t0 : Int) : List Int → List Bool
  | [] => []
  | t :: ts =>
    if t = t0 then false :: first_move_log t0 ts else true :: ts.map (fun _ => false)

/-- Exactly one of the counters `cold`, `hot` is non-zero. -/
def exactly_one_nonzero (s : LoopState) : Prop :=
  (s.cold ≠ 0 ∧ s.hot = 0) ∨ (s.cold = 0 ∧ s.hot ≠ 0)

/-- Source lines 308-318: start-up.  The state is `none` once `exit` has run. -/
def main_init (env : Env) : List Event × Option LoopState :=
  let ev := set_fans_manual (env.fopen_w 0) 0
  match get_sensors_temp env 0 with
  | .error stop => (ev ++ stop, none)
  | .ok t =>
    (ev ++ set_fans_min (env.fopen_w 0) (speed_step_of t), some (loop_init t))

/-- Source lines 325-363: iteration `k` of the main loop, with its events. -/
def main_iter (env : Env) (k : Nat) (s : LoopState) : List Event × Option LoopState :=
  match get_sensors_temp env k with
  | .error stop => (Event.sd_notify :: stop, none)
  | .ok t =>
    let r := loop_body s t
    let ev := Event.sd_notify ::
      (match r.2 with
       | some step => set_fans_min (env.fopen_w k) step ++ [Event.syslog_info step t]
       | none => [])
    match env.nanosleep k with
    | .elapsed => (ev, some r.1)
    | .failed => (ev ++ clean_exit_with_status (env.fopen_w k) EXIT_FAILURE, none)
    | .terminated => (ev ++ clean_exit_with_status (env.fopen_w k) EXIT_SUCCESS, none)

/-- The daemon from start-up through `n` iterations of the main loop: the events
so far and the loop state, `none` once the process has exited. -/
def main (env : Env) : Nat → List Event × Option LoopState
  | 0 => main_init env
  | n + 1 =>
    match main env n with
    | (tr, none) => (tr, none)
    | (tr, some s) => ((tr ++ (main_iter env (n + 1) s).1), (main_iter env (n + 1) s).2)

/-- Test on an event: if it writes to some `fanX_manual`, the value is 0. -/
def manual_write_is_zero : Event → Bool
  | .fprintf (.fan_manual _) value => value == 0
  | _ => true

/-- An environment in which the sensor can be read at start-up and is gone at
the first poll of the loop; every fan file can be opened. -/
def env_sensor_lost : Env :=
  { fopen_r := fun k _ => if k = 0 then some 71000 else none
    fopen_w := fun _ _ => true
    nanosleep := fun _ => .elapsed }

/-- An environment without the `applesmc` directory: neither the sensor file
nor any fan file can be opened. -/
def env_module_missing : Env :=
  { fopen_r := fun _ _ => none
    fopen_w := fun _ _ => false
    nanosleep := fun _ => .elapsed }

/-- An environment in which every file can be opened and the sensor holds
71000 millidegrees at every poll. -/
def env_steady : Env :=
  { fopen_r := fun _ _ => some 71000
    fopen_w := fun _ _ => true
    nanosleep := fun _ => .elapsed }

/-- An environment in which every file can be opened, the sensor holds 71000
millidegrees and a termination signal arrives during the first poll sleep. -/
def env_terminated : Env :=
  { fopen_r := fun _ _ => some 71000
    fopen_w := fun _ _ => true
    nanosleep := fun k => if k = 1 then .terminated else .elapsed }

/-- An environment in which every file can be opened and the sensor holds one
degree more at every poll, starting from 70000 millidegrees. -/
def env_rising : Env :=
  { fopen_r := fun k _ => some (70000 + 1000 * (k : Int))
    fopen_w := fun _ _ => true
    nanosleep := fun _ => .elapsed }

/-- Test on an event: it is a write, or a failed attempt to write, to some
`fanX_min`. -/
def touches_fan_min : Event → Bool
  | .fprintf (.fan_min _) _ => true
  | .syslog_warning (.fan_min _) => true
  | _ => false

/-- The fan-speed writes of a trace, in order. -/
def fan_min_events (tr : List Event) : List Event := tr.filter touches_fan_min

/-- The calls of `set_fans_min` the rule of the specification expects of `main`
after `n` iterations, each with its poll and its speed step: the unconditional
one at start-up, then one on every tick on which the debounce condition fires
and the step of the reading differs from `old_speed_step`. -/
def expected_calls (env : Env) : Nat → List (Nat × Int)
  | 0 =>
    match get_sensors_temp env 0 with
    | .error _ => []
    | .ok t => [(0, speed_step_of t)]
  | n + 1 =>
    match (main env n).2, get_sensors_temp env (n + 1) with
    | some s, .ok t =>
      if loop_fires s t && (speed_step_of t != s.old_speed_step) then
        expected_calls env n ++ [(n + 1, speed_step_of t)]
      else expected_calls env n
    | _, _ => expected_calls env n

/-- What a list of calls of `set_fans_min` does to the fan files. -/
def calls_events (env : Env) : List (Nat × Int) → List Event
  | [] => []
  | c :: cs => set_fans_min (env.fopen_w c.1) c.2 ++ calls_events env cs

/-! ## Arithmetic lemmas -/

theorem wrap32_of_range (x : Int) (h1 : -2147483648 ≤ x) (h2 : x ≤ 2147483647) :
    wrap32 x = x := by
  unfold wrap32
  omega

theorem wrap32_range (x : Int) : -2147483648 ≤ wrap32 x ∧ wrap32 x ≤ 2147483647 := by
  unfold wrap32
  omega

theorem tdiv_of_pos (a b : Int) (hb : 0 < b) :
    Int.tdiv a b = if 0 ≤ a then a / b else -((-a) / b) := by
  split
  · rename_i h
    exact Int.tdiv_eq_ediv h hb.le
  · rename_i h
    have h2 : 0 ≤ -a := by omega
    have h3 := Int.tdiv_eq_ediv h2 hb.le
    rw [Int.neg_tdiv] at h3
    omega

theorem tdiv_ten_mono (a b : Int) (h : a ≤ b) : Int.tdiv a 10 ≤ Int.tdiv b 10 := by
  rw [tdiv_of_pos _ _ (by norm_num), tdiv_of_pos _ _ (by norm_num)]
  split <;> split <;> omega

theorem int_checked_fits (x : Int) (h1 : -2147483648 ≤ x) (h2 : x ≤ 2147483647) :
    int_checked x = some x := by
  unfold int_checked
  rw [if_pos ⟨h1, h2⟩]

/-- Where `t - 70` and the product `(t - 70) * 20` fit an `int`, the call has a
result: the exact quotient truncated toward zero, clamped to `[0, 20]`. -/
theorem temperature_to_speed_step_exact (t : Int)
    (h1 : -107374112 ≤ t) (h2 : t ≤ 107374252) :
    temperature_to_speed_step t =
      some (let step := Int.tdiv ((t - 70) * 20) 10
            let step := if step < 0 then 0 else step
            if step > 20 then 20 else step) := by
  have c1 : int_checked (t - 70) = some (t - 70) :=
    int_checked_fits _ (by omega) (by omega)
  have c2 : int_checked ((t - 70) * SPEED_STEP_MAX) = some ((t - 70) * 20) := by
    unfold SPEED_STEP_MAX
    exact int_checked_fits _ (by omega) (by omega)
  have c3 : int_checked (Int.tdiv ((t - 70) * 20) (80 - 70)) =
      some (Int.tdiv ((t - 70) * 20) 10) := by
    have e : ((80 : Int) - 70) = 10 := by norm_num
    rw [e]
    apply int_checked_fits
    · rw [tdiv_of_pos _ _ (by norm_num)]
      split <;> omega
    · rw [tdiv_of_pos _ _ (by norm_num)]
      split <;> omega
  unfold temperature_to_speed_step
  rw [c1]
  simp only [Option.some_bind]
  rw [c2]
  simp only [Option.some_bind]
  rw [c3]
  simp only [Option.map_some', SPEED_STEP_MAX]

/-- Whatever the readings, the aggregated temperature is at most 2147483 degrees
in absolute value. -/
theorem sensors_average_range (r : List Int) :
    -2147483 ≤ sensors_average r ∧ sensors_average r ≤ 2147483 := by
  unfold sensors_average
  simp only []
  generalize sum_first_two (qsort compare_int_desc r) = acc
  obtain ⟨avg, cnt⟩ := acc
  simp only []
  have hr := wrap32_range (Int.tdiv avg cnt)
  unfold int_div
  generalize wrap32 (Int.tdiv avg cnt) = x at hr
  have hq : -2147483 ≤ Int.tdiv x 1000 ∧ Int.tdiv x 1000 ≤ 2147483 := by
    rw [tdiv_of_pos _ _ (by norm_num)]
    split <;> omega
  rw [wrap32_of_range _ (by omega) (by omega)]
  exact hq

/-- In range the result is the formula of the specification. -/
theorem eq_spec_in_range (t : Int) (h1 : -107374112 ≤ t) (h2 : t ≤ 107374252) :
    temperature_to_speed_step t = some (temperature_to_step_spec t) := by
  rw [temperature_to_speed_step_exact t h1 h2]
  simp only [temperature_to_step_spec]
  congr 1
  split_ifs <;> omega

/-- On every temperature that `get_sensors_temp` returns the transfer function
has a result, the one the main loop works with. -/
theorem speed_step_of_sensors (r : List Int) :
    temperature_to_speed_step (sensors_average r) =
      some (speed_step_of (sensors_average r)) := by
  have b := sensors_average_range r
  have h := eq_spec_in_range (sensors_average r) (by omega) (by omega)
  unfold speed_step_of
  rw [h]
  rfl

/-! ## Transfer function: claims C1 and C2 -/

/-- C2, as stated, fails: 80 ≤ 1181116077, the step at 80 is 20, and at 1181116077
the product `(t - 70) * 20` does not fit an `int`, so C defines no step there
that could be at least 20.  (Compiled code that evaluates the quotient as
`2 * (t - 70)` in 32 bits, and code that wraps the product, both return 0
there, below the 20 at 80.) -/
theorem temperature_to_speed_step_not_monotone :
    (80 : Int) ≤ 1181116077 ∧ temperature_to_speed_step 80 = some 20 ∧
      temperature_to_speed_step 1181116077 = none ∧
      ¬ step_le (temperature_to_speed_step 80) (temperature_to_speed_step 1181116077) := by
  refine ⟨by decide, by decide, by decide, ?_⟩
  rintro ⟨v1, v2, _, h2, _⟩
  have hn : temperature_to_speed_step 1181116077 = none := by decide
  rw [hn] at h2
  cases h2

theorem monotone_in_range (t1 t2 : Int)
    (h1 : -107374112 ≤ t1) (h : t1 ≤ t2) (h2 : t2 ≤ 107374252) :
    step_le (temperature_to_speed_step t1) (temperature_to_speed_step t2) := by
  refine ⟨_, _, temperature_to_speed_step_exact t1 h1 (by omega),
    temperature_to_speed_step_exact t2 (by omega) h2, ?_⟩
  have hm := tdiv_ten_mono ((t1 - 70) * 20) ((t2 - 70) * 20) (by omega)
  simp only []
  split_ifs <;> omega

/-- C2, amended: the transfer function is monotonic non-decreasing on the
temperatures for which `t - 70` and the product `(t - 70) * 20` fit the `int`
arithmetic of the code, that is from -107374112 to 107374252 degrees: both
steps exist and are in order; every temperature that `get_sensors_temp` returns
lies in that range, so it is monotonic on all of them. -/
theorem temperature_to_speed_step_monotone (t1 t2 : Int) (r1 r2 : List Int) :
    (-107374112 ≤ t1 → t1 ≤ t2 → t2 ≤ 107374252 →
        step_le (temperature_to_speed_step t1) (temperature_to_speed_step t2)) ∧
      (sensors_average r1 ≤ sensors_average r2 →
        step_le (temperature_to_speed_step (sensors_average r1))
          (temperature_to_speed_step (sensors_average r2))) := by
  refine ⟨monotone_in_range t1 t2, fun h => ?_⟩
  have b1 := sensors_average_range r1
  have b2 := sensors_average_range r2
  exact monotone_in_range _ _ (by omega) h (by omega)

/-- Witness of C2, amended, at 72 and 78 degrees. -/
theorem temperature_to_speed_step_monotone_witness :
    step_le (temperature_to_speed_step 72) (temperature_to_speed_step 78) :=
  (temperature_to_speed_step_monotone 72 78 [] []).1 (by decide) (by decide) (by decide)

/-! ## Fan speed: claim C6 -/

theorem fan_speed_of_reference (speed_step : Int) (h0 : 0 ≤ speed_step)
    (h1 : speed_step ≤ 20) :
    fan_speed_of 1000 2200 speed_step = 1000 + speed_step * (2200 - 1000) / 20 := by
  have e1 : int_sub 2200 1000 = 1200 := by decide
  have e2 : int_mul speed_step 1200 = speed_step * 1200 := by
    unfold int_mul
    exact wrap32_of_range _ (by omega) (by omega)
  have e3 : int_div (speed_step * 1200) 20 = speed_step * 1200 / 20 := by
    unfold int_div
    rw [tdiv_of_pos _ _ (by norm_num), if_pos (by omega)]
    exact wrap32_of_range _ (by omega) (by omega)
  have e4 : int_add 1000 (speed_step * 1200 / 20) = 1000 + speed_step * 1200 / 20 := by
    unfold int_add
    exact wrap32_of_range _ (by omega) (by omega)
  rw [fan_speed_of, e1, e2]
  simp only [SPEED_STEP_MAX]
  rw [e3, e4]
  norm_num

theorem fans_bounds (i : Nat) (hi : i < FANS_NUM) :
    FANS_MIN.getD i 0 = 1000 ∧ FANS_MAX.getD i 0 = 2200 := by
  have hi4 : i < 4 := hi
  interval_cases i <;> exact ⟨rfl, rfl⟩

/-- C6: for every controlled fan and every speed step in `[0, 20]` the speed
that `set_fans_min` computes is `FANS_MIN[i] + step * (FANS_MAX[i] - FANS_MIN[i]) / 20`,
lies between `FANS_MIN[i]` and `FANS_MAX[i]`, is `FANS_MIN[i]` at step 0 and
`FANS_MAX[i]` at step 20, is what the writer puts into `fanX_min` of that fan, and
with bounds 1000 and 2200 step 10 gives 1600. -/
theorem fan_speed_linear (i : Nat) (speed_step : Int) (hi : i < FANS_NUM)
    (h0 : 0 ≤ speed_step) (h1 : speed_step ≤ 20) :
    fan_speed i speed_step =
        FANS_MIN.getD i 0 + speed_step * (FANS_MAX.getD i 0 - FANS_MIN.getD i 0) / 20 ∧
      (FANS_MIN.getD i 0 ≤ fan_speed i speed_step ∧
        fan_speed i speed_step ≤ FANS_MAX.getD i 0) ∧
      fan_speed i 0 = FANS_MIN.getD i 0 ∧ fan_speed i 20 = FANS_MAX.getD i 0 ∧
      (set_fans_min (fun _ => true) speed_step).get? i =
        some (Event.fprintf (Path.fan_min (FANS.getD i 0)) (fan_speed i speed_step)) ∧
      fan_speed_of 1000 2200 10 = 1600 := by
  obtain ⟨hmin, hmax⟩ := fans_bounds i hi
  have e : fan_speed i speed_step = 1000 + speed_step * (2200 - 1000) / 20 := by
    rw [fan_speed, hmin, hmax]
    exact fan_speed_of_reference speed_step h0 h1
  have e0 : fan_speed i 0 = 1000 := by
    rw [fan_speed, hmin, hmax]
    decide
  have e20 : fan_speed i 20 = 2200 := by
    rw [fan_speed, hmin, hmax]
    decide
  refine ⟨?_, ⟨?_, ?_⟩, ?_, ?_, ?_, by decide⟩
  · rw [e, hmin, hmax]
  · rw [e, hmin]
    omega
  · rw [e, hmax]
    omega
  · rw [e0, hmin]
  · rw [e20, hmax]
  · have hi4 : i < 4 := hi
    interval_cases i <;> rfl

/-- Witness of C6 at the third fan and step 10. -/
theorem fan_speed_linear_witness :
    fan_speed 2 10 = 1600 ∧ FANS_MIN.getD 2 0 = 1000 ∧ FANS_MAX.getD 2 0 = 2200 :=
  ⟨((fan_speed_linear 2 10 (by decide) (by decide) (by decide)).1).trans (by decide),
    by decide, by decide⟩

/-! ## The counters of the main loop -/

theorem int_add_zero_one : int_add 0 1 = 1 := by decide

theorem int_add_one_one : int_add 1 1 = 2 := by decide

theorem loop_body_t_old (s : LoopState) (t : Int) : (loop_body s t).1.t_old = t := rfl

/-- The counters after the two comparisons of a tick, by the kind of move. -/
theorem counters_after_compare (s : LoopState) (t : Int) :
    (t < s.t_old → (count_hotter (count_colder s t) t).cold = int_add s.cold 1 ∧
        (count_hotter (count_colder s t) t).hot = 0) ∧
      (t > s.t_old → (count_hotter (count_colder s t) t).cold = 0 ∧
        (count_hotter (count_colder s t) t).hot = int_add s.hot 1) ∧
      (t = s.t_old → (count_hotter (count_colder s t) t).cold = s.cold ∧
        (count_hotter (count_colder s t) t).hot = s.hot) := by
  refine ⟨fun h => ?_, fun h => ?_, fun h => ?_⟩
  · have h2 : ¬ t > s.t_old := by omega
    simp [count_colder, count_hotter, h, h2]
  · have h2 : ¬ t < s.t_old := by omega
    simp [count_colder, count_hotter, h, h2]
  · simp [count_colder, count_hotter, h]

/-- The counters after a whole tick: reset when the condition fires, else as
left by the comparisons. -/
theorem loop_body_counters (s : LoopState) (t : Int) :
    (loop_body s t).1.cold =
        (if loop_fires s t then 0 else (count_hotter (count_colder s t) t).cold) ∧
      (loop_body s t).1.hot =
        (if loop_fires s t then 0 else (count_hotter (count_colder s t) t).hot) := by
  unfold loop_body loop_fires apply_step
  by_cases hd : debounce (count_hotter (count_colder s t) t) = true
  · by_cases hs : (speed_step_of t != (count_hotter (count_colder s t) t).old_speed_step) = true
    · simp [hd, hs]
    · simp [hd, hs]
  · simp [hd]

/-- A tick that observes a colder reading, for a counter `cold` that is 0 or 1. -/
theorem tick_colder (s : LoopState) (t : Int) (h : t < s.t_old)
    (hc : s.cold = 0 ∨ s.cold = 1) :
    loop_fires s t = decide (s.cold = 1) ∧
      (loop_body s t).1.cold = (if s.cold = 1 then 0 else 1) ∧
      (loop_body s t).1.hot = 0 := by
  obtain ⟨e1, e2⟩ := (counters_after_compare s t).1 h
  obtain ⟨b1, b2⟩ := loop_body_counters s t
  have hf : loop_fires s t = decide (s.cold = 1) := by
    unfold loop_fires debounce
    rw [e1, e2]
    rcases hc with hc | hc <;> rw [hc] <;> decide
  rw [b1, b2, e1, e2, hf]
  rcases hc with hc | hc <;> rw [hc] <;> decide

/-- A tick that observes a hotter reading, for a counter `hot` that is 0 or 1. -/
theorem tick_hotter (s : LoopState) (t : Int) (h : t > s.t_old)
    (hh : s.hot = 0 ∨ s.hot = 1) :
    loop_fires s t = decide (s.hot = 1) ∧
      (loop_body s t).1.cold = 0 ∧
      (loop_body s t).1.hot = (if s.hot = 1 then 0 else 1) := by
  obtain ⟨e1, e2⟩ := (counters_after_compare s t).2.1 h
  obtain ⟨b1, b2⟩ := loop_body_counters s t
  have hf : loop_fires s t = decide (s.hot = 1) := by
    unfold loop_fires debounce
    rw [e1, e2]
    rcases hh with hh | hh <;> rw [hh] <;> decide
  rw [b1, b2, e1, e2, hf]
  rcases hh with hh | hh <;> rw [hh] <;> decide

/-- A tick that observes the same reading again leaves the counters alone. -/
theorem tick_tie (s : LoopState) (t : Int) (h : t = s.t_old)
    (hc : s.cold = 0 ∨ s.cold = 1) (hh : s.hot = 0 ∨ s.hot = 1) :
    loop_fires s t = false ∧ (loop_body s t).1.cold = s.cold ∧
      (loop_body s t).1.hot = s.hot := by
  obtain ⟨e1, e2⟩ := (counters_after_compare s t).2.2 h
  obtain ⟨b1, b2⟩ := loop_body_counters s t
  have hf : loop_fires s t = false := by
    unfold loop_fires debounce
    rw [e1, e2]
    rcases hc with hc | hc <;> rcases hh with hh | hh <;> rw [hc, hh] <;> decide
  rw [b1, b2, e1, e2, hf]
  simp

theorem strict_moves_colder (t_old t : Int) (ts : List Int) (h : t < t_old) :
    strict_moves t_old (t :: ts) = -1 :: strict_moves t ts := by
  simp [strict_moves, move, h]

theorem strict_moves_hotter (t_old t : Int) (ts : List Int) (h : t > t_old) :
    strict_moves t_old (t :: ts) = 1 :: strict_moves t ts := by
  have h2 : ¬ t < t_old := by omega
  simp [strict_moves, move, h, h2]

theorem strict_moves_tie (t_old t : Int) (ts : List Int) (h : t = t_old) :
    strict_moves t_old (t :: ts) = strict_moves t ts := by
  simp [strict_moves, move, h]

theorem alternating_cons_cons (a b : Int) (l : List Int) :
    alternating (a :: b :: l) ↔ a ≠ b ∧ alternating (b :: l) := by
  simp [alternating, alternating_moves]

theorem alternating_tail (a : Int) (l : List Int) (h : alternating (a :: l)) :
    alternating l := by
  cases l with
  | nil => rfl
  | cons b l => exact ((alternating_cons_cons a b l).mp h).2

/-- Once the counters hold at most the last strict move, a run whose strict
moves alternate never meets the debounce condition. -/
theorem no_fire_of_alternating (ts : List Int) : ∀ s : LoopState,
    ((s.cold = 0 ∧ s.hot = 0 ∧ alternating (strict_moves s.t_old ts)) ∨
      (s.cold = 1 ∧ s.hot = 0 ∧ alternating (-1 :: strict_moves s.t_old ts)) ∨
      (s.cold = 0 ∧ s.hot = 1 ∧ alternating (1 :: strict_moves s.t_old ts))) →
    loop_fire_log s ts = ts.map (fun _ => false) := by
  induction ts with
  | nil => intro s _; rfl
  | cons t ts ih =>
    intro s h
    simp only [loop_fire_log, List.map_cons]
    have ht := loop_body_t_old s t
    rcases lt_trichotomy t s.t_old with hlt | heq | hgt
    · rw [strict_moves_colder _ _ _ hlt] at h
      rcases h with ⟨hc, hh, ha⟩ | ⟨hc, hh, ha⟩ | ⟨hc, hh, ha⟩
      · obtain ⟨f, c, k⟩ := tick_colder s t hlt (Or.inl hc)
        rw [hc] at f c
        rw [f, ih _ (Or.inr (Or.inl ⟨c, k, by rw [ht]; exact ha⟩))]
        rfl
      · exact absurd rfl ((alternating_cons_cons _ _ _).mp ha).1
      · obtain ⟨f, c, k⟩ := tick_colder s t hlt (Or.inl hc)
        rw [hc] at f c
        rw [f, ih _ (Or.inr (Or.inl ⟨c, k, by rw [ht]; exact ((alternating_cons_cons _ _ _).mp ha).2⟩))]
        rfl
    · rw [strict_moves_tie _ _ _ heq] at h
      have hc01 : s.cold = 0 ∨ s.cold = 1 := by
        rcases h with ⟨hc, _, _⟩ | ⟨hc, _, _⟩ | ⟨hc, _, _⟩
        · exact Or.inl hc
        · exact Or.inr hc
        · exact Or.inl hc
      have hh01 : s.hot = 0 ∨ s.hot = 1 := by
        rcases h with ⟨_, hh, _⟩ | ⟨_, hh, _⟩ | ⟨_, hh, _⟩
        · exact Or.inl hh
        · exact Or.inl hh
        · exact Or.inr hh
      obtain ⟨f, c, k⟩ := tick_tie s t heq hc01 hh01
      rw [f, ih _ (by rw [ht, c, k]; exact h)]
    · rw [strict_moves_hotter _ _ _ hgt] at h
      rcases h with ⟨hc, hh, ha⟩ | ⟨hc, hh, ha⟩ | ⟨hc, hh, ha⟩
      · obtain ⟨f, c, k⟩ := tick_hotter s t hgt (Or.inl hh)
        rw [hh] at f k
        rw [f, ih _ (Or.inr (Or.inr ⟨c, k, by rw [ht]; exact ha⟩))]
        rfl
      · obtain ⟨f, c, k⟩ := tick_hotter s t hgt (Or.inl hh)
        rw [hh] at f k
        rw [f, ih _ (Or.inr (Or.inr ⟨c, k, by rw [ht]; exact ((alternating_cons_cons _ _ _).mp ha).2⟩))]
        rfl
      · exact absurd rfl ((alternating_cons_cons _ _ _).mp ha).1

/-- From the seeded counters the first strict move meets the debounce condition,
and when the strict moves alternate no later tick does. -/
theorem fire_log_of_seed (ts : List Int) : ∀ s : LoopState,
    s.cold = 1 → s.hot = 1 → alternating (strict_moves s.t_old ts) →
    loop_fire_log s ts = first_move_log s.t_old ts := by
  induction ts with
  | nil => intro s _ _ _; rfl
  | cons t ts ih =>
    intro s hc hh ha
    simp only [loop_fire_log, first_move_log]
    have ht := loop_body_t_old s t
    rcases lt_trichotomy t s.t_old with hlt | heq | hgt
    · rw [strict_moves_colder _ _ _ hlt] at ha
      obtain ⟨f, c, k⟩ := tick_colder s t hlt (Or.inr hc)
      rw [hc] at f c
      rw [if_neg (by omega), f,
        no_fire_of_alternating ts _ (Or.inl ⟨c, k, by rw [ht]; exact alternating_tail _ _ ha⟩)]
      rfl
    · rw [strict_moves_tie _ _ _ heq] at ha
      obtain ⟨f, c, k⟩ := tick_tie s t heq (Or.inr hc) (Or.inr hh)
      rw [if_pos heq, f, ih _ (by rw [c, hc]) (by rw [k, hh]) (by rw [ht]; exact ha), ht, heq]
    · rw [strict_moves_hotter _ _ _ hgt] at ha
      obtain ⟨f, c, k⟩ := tick_hotter s t hgt (Or.inr hh)
      rw [hh] at f k
      rw [if_neg (by omega), f,
        no_fire_of_alternating ts _ (Or.inl ⟨c, k, by rw [ht]; exact alternating_tail _ _ ha⟩)]
      rfl

/-! ## Hysteresis: claims C4 and C5 -/

/-- C4, as stated, fails: from the seeded state (`t_old = 70`, `cold = hot = 1`)
the readings 71, 70, 71 have alternating strict moves, yet the debounce
condition fires on the first of them. -/
theorem alternating_readings_fire :
    alternating (strict_moves (loop_init 70).t_old [71, 70, 71]) ∧
      loop_fire_log (loop_init 70) [71, 70, 71] = [true, false, false] ∧
      true ∈ loop_fire_log (loop_init 70) [71, 70, 71] := by
  decide

/-- C4, amended: from the seeded state, for every sequence of readings in which
no two consecutive strict moves go in the same direction, the debounce condition
fires on the tick of the first strict move (the counters were seeded with 1) and
on no other tick; once the counters are both 0, as they are after any firing,
such a sequence makes it fire on no tick.  For 71, 70, 71 after 70 it fires on
the first tick only. -/
theorem alternating_fires_once (t0 : Int) (ts : List Int) (s : LoopState) :
    (alternating (strict_moves t0 ts) →
        loop_fire_log (loop_init t0) ts = first_move_log t0 ts) ∧
      (s.cold = 0 → s.hot = 0 → alternating (strict_moves s.t_old ts) →
        loop_fire_log s ts = ts.map (fun _ => false)) ∧
      loop_fire_log (loop_init 70) [71, 70, 71] = [true, false, false] :=
  ⟨fun h => fire_log_of_seed ts (loop_init t0) rfl rfl h,
    fun hc hh h => no_fire_of_alternating ts s (Or.inl ⟨hc, hh, h⟩), by decide⟩

/-- Witness of C4, amended, on two alternating sequences. -/
theorem alternating_fires_once_witness :
    loop_fire_log (loop_init 70) [70, 69, 69, 72, 71] =
        first_move_log 70 [70, 69, 69, 72, 71] ∧
      loop_fire_log ⟨70, 0, 0, 0, 0⟩ [71, 70, 71] = [false, false, false] :=
  ⟨(alternating_fires_once 70 [70, 69, 69, 72, 71] ⟨70, 0, 0, 0, 0⟩).1 (by decide),
    (alternating_fires_once 70 [71, 70, 71] ⟨70, 0, 0, 0, 0⟩).2.1 rfl rfl (by decide)⟩

/-- C5, as stated, fails: from the seeded state (`t_old = 70`, `cold = hot = 1`)
the debounce condition fires when 71 is observed and not when 72 is, whether or
not the loop first observes 70 again. -/
theorem rising_readings_fire_early :
    loop_fire_log (loop_init 70) [71, 72] = [true, false] ∧
      loop_fire_log (loop_init 70) [70, 71, 72] = [false, true, false] := by
  decide

/-- C5, amended: from the seeded state the debounce condition fires when 71 is
observed, after which `cold = 0` and `hot = 0`, and does not fire when 72 is
observed; from counters that are both 0, as after any firing, it does not fire
when 71 is observed and fires when 72 is observed, after which `cold = 0` and
`hot = 0`. -/
theorem rising_readings (speed_step old_speed_step : Int) :
    loop_fire_log (loop_init 70) [71, 72] = [true, false] ∧
      (loop_run (loop_init 70) [71]).cold = 0 ∧ (loop_run (loop_init 70) [71]).hot = 0 ∧
      loop_fire_log ⟨70, speed_step, old_speed_step, 0, 0⟩ [71, 72] = [false, true] ∧
      (loop_run ⟨70, speed_step, old_speed_step, 0, 0⟩ [71, 72]).cold = 0 ∧
      (loop_run ⟨70, speed_step, old_speed_step, 0, 0⟩ [71, 72]).hot = 0 := by
  have h1 : (71 : Int) > (⟨70, speed_step, old_speed_step, 0, 0⟩ : LoopState).t_old := by
    show (71 : Int) > 70
    decide
  obtain ⟨f1, c1, k1⟩ := tick_hotter ⟨70, speed_step, old_speed_step, 0, 0⟩ 71 h1 (Or.inl rfl)
  have h2 : (72 : Int) > (loop_body ⟨70, speed_step, old_speed_step, 0, 0⟩ 71).1.t_old := by
    rw [loop_body_t_old]
    decide
  obtain ⟨f2, c2, k2⟩ := tick_hotter _ 72 h2 (Or.inr k1)
  refine ⟨by decide, by decide, by decide, ?_, ?_, ?_⟩
  · simp only [loop_fire_log]
    rw [f1, f2, k1]
    rfl
  · simp only [loop_run]
    exact c2
  · simp only [loop_run]
    rw [k2, k1]
    rfl

/-! ## The counter invariant: claim C9 -/

/-- After the first strict move the counters stay among (0,0), (1,0), (0,1). -/
theorem counters_stay (ts : List Int) : ∀ s : LoopState,
    ((s.cold = 0 ∧ s.hot = 0) ∨ (s.cold = 1 ∧ s.hot = 0) ∨ (s.cold = 0 ∧ s.hot = 1)) →
    (((loop_run s ts).cold = 0 ∧ (loop_run s ts).hot = 0) ∨
      ((loop_run s ts).cold = 1 ∧ (loop_run s ts).hot = 0) ∨
      ((loop_run s ts).cold = 0 ∧ (loop_run s ts).hot = 1)) := by
  induction ts with
  | nil => intro s h; exact h
  | cons t ts ih =>
    intro s h
    simp only [loop_run]
    apply ih
    have hc01 : s.cold = 0 ∨ s.cold = 1 := by omega
    have hh01 : s.hot = 0 ∨ s.hot = 1 := by omega
    rcases lt_trichotomy t s.t_old with hlt | heq | hgt
    · obtain ⟨_, c, k⟩ := tick_colder s t hlt hc01
      rw [c, k]
      split_ifs <;> simp
    · obtain ⟨_, c, k⟩ := tick_tie s t heq hc01 hh01
      rw [c, k]
      exact h
    · obtain ⟨_, c, k⟩ := tick_hotter s t hgt hh01
      rw [c, k]
      split_ifs <;> simp

/-- From the seeded counters: they stay (1,1) while every reading repeats the
first one, and are among (0,0), (1,0), (0,1) afterwards. -/
theorem counters_from_seed (ts : List Int) : ∀ s : LoopState, s.cold = 1 → s.hot = 1 →
    (((loop_run s ts).cold = 1 ∧ (loop_run s ts).hot = 1 ∧ ∀ t ∈ ts, t = s.t_old) ∨
      ((loop_run s ts).cold = 0 ∧ (loop_run s ts).hot = 0) ∨
      ((loop_run s ts).cold = 1 ∧ (loop_run s ts).hot = 0) ∨
      ((loop_run s ts).cold = 0 ∧ (loop_run s ts).hot = 1)) := by
  induction ts with
  | nil => intro s hc hh; exact Or.inl ⟨hc, hh, by simp⟩
  | cons t ts ih =>
    intro s hc hh
    simp only [loop_run]
    have ht := loop_body_t_old s t
    rcases lt_trichotomy t s.t_old with hlt | heq | hgt
    · obtain ⟨_, c, k⟩ := tick_colder s t hlt (Or.inr hc)
      rw [hc] at c
      exact Or.inr (counters_stay ts _ (Or.inl ⟨c, k⟩))
    · obtain ⟨_, c, k⟩ := tick_tie s t heq (Or.inr hc) (Or.inr hh)
      rcases ih (loop_body s t).1 (by rw [c, hc]) (by rw [k, hh]) with h | h
      · refine Or.inl ⟨h.1, h.2.1, ?_⟩
        intro x hx
        rcases List.mem_cons.mp hx with hx | hx
        · rw [hx, heq]
        · rw [h.2.2 x hx, ht, heq]
      · exact Or.inr h
    · obtain ⟨_, c, k⟩ := tick_hotter s t hgt (Or.inr hh)
      rw [hh] at k
      exact Or.inr (counters_stay ts _ (Or.inl ⟨c, k⟩))

/-- C9, as stated, fails: in the seeded state both counters are 1, and after
the first firing (here on the reading 71) both are 0. -/
theorem counters_not_exactly_one :
    ¬ exactly_one_nonzero (loop_run (loop_init 70) []) ∧
      ¬ exactly_one_nonzero (loop_run (loop_init 70) [71]) := by
  unfold exactly_one_nonzero
  decide

/-- C9, amended: in every state the main loop can reach, each counter is 0 or 1:
`cold` and `hot` are both 1 only while every reading so far has repeated the
first one, and otherwise at most one of them is non-zero (both are 0, or exactly
one of them is 1). -/
theorem counters_reachable (t0 : Int) (ts : List Int) :
    ((loop_run (loop_init t0) ts).cold = 1 ∧ (loop_run (loop_init t0) ts).hot = 1 ∧
        ∀ t ∈ ts, t = t0) ∨
      ((loop_run (loop_init t0) ts).cold = 0 ∧ (loop_run (loop_init t0) ts).hot = 0) ∨
      (exactly_one_nonzero (loop_run (loop_init t0) ts) ∧
        ((loop_run (loop_init t0) ts).cold = 1 ∨ (loop_run (loop_init t0) ts).hot = 1)) := by
  rcases counters_from_seed ts (loop_init t0) rfl rfl with h | h | h | h
  · exact Or.inl h
  · exact Or.inr (Or.inl h)
  · exact Or.inr (Or.inr ⟨Or.inl ⟨by rw [h.1]; decide, h.2⟩, Or.inl h.1⟩)
  · exact Or.inr (Or.inr ⟨Or.inr ⟨h.1, by rw [h.2]; decide⟩, Or.inr h.2⟩)

/-! ## What a tick passes to `set_fans_min` -/

theorem compare_old_speed_step (s : LoopState) (t : Int) :
    (count_hotter (count_colder s t) t).old_speed_step = s.old_speed_step := by
  unfold count_hotter count_colder
  split_ifs <;> rfl

/-- What a tick passes to `set_fans_min`, and the `old_speed_step` it leaves. -/
theorem loop_body_call (s : LoopState) (t : Int) :
    (loop_body s t).2 =
        (if loop_fires s t && (speed_step_of t != s.old_speed_step)
          then some (speed_step_of t) else none) ∧
      (loop_body s t).1.old_speed_step =
        (if loop_fires s t && (speed_step_of t != s.old_speed_step)
          then speed_step_of t else s.old_speed_step) := by
  have ho := compare_old_speed_step s t
  unfold loop_body loop_fires apply_step
  rw [ho]
  by_cases hd : debounce (count_hotter (count_colder s t) t) = true
  · by_cases hs : (speed_step_of t != s.old_speed_step) = true
    · simp [hd, hs]
    · simp [hd, hs, ho]
  · simp [hd, ho]

/-! ## Sensor aggregation: claim C3 -/

theorem compare_int_desc_exact (a b : Int) (ha : reading_fits a) (hb : reading_fits b) :
    compare_int_desc a b = b - a := by
  unfold reading_fits at ha hb
  unfold compare_int_desc int_sub
  exact wrap32_of_range _ (by omega) (by omega)

theorem qsort_insert_exact (x : Int) (hx : reading_fits x) : ∀ ys : List Int,
    (∀ y ∈ ys, reading_fits y) →
    qsort_insert compare_int_desc x ys = List.orderedInsert (fun a b => b ≤ a) x ys := by
  intro ys
  induction ys with
  | nil => intro _; rfl
  | cons y ys ih =>
    intro h
    have hy : reading_fits y := h y (List.mem_cons_self y ys)
    have hrest : ∀ z ∈ ys, reading_fits z := fun z hz => h z (List.mem_cons_of_mem y hz)
    simp only [qsort_insert, List.orderedInsert]
    rw [compare_int_desc_exact x y hx hy, ih hrest]
    by_cases hle : y ≤ x
    · rw [if_pos (by omega), if_pos hle]
    · rw [if_neg (by omega), if_neg hle]

/-- On readings that fit, the comparison function orders like the integers and
`qsort` returns the readings in descending order. -/
theorem qsort_exact : ∀ t : List Int, (∀ x ∈ t, reading_fits x) →
    qsort compare_int_desc t = t.insertionSort (fun a b => b ≤ a) := by
  intro t
  induction t with
  | nil => intro _; rfl
  | cons x xs ih =>
    intro h
    have hx : reading_fits x := h x (List.mem_cons_self x xs)
    have hrest : ∀ z ∈ xs, reading_fits z := fun z hz => h z (List.mem_cons_of_mem x hz)
    simp only [qsort, List.insertionSort]
    rw [ih hrest]
    apply qsort_insert_exact x hx
    intro y hy
    exact hrest y ((List.perm_insertionSort _ xs).subset hy)

theorem largest_two_fits (t : List Int) (h : ∀ x ∈ t, reading_fits x) :
    ∀ x ∈ largest_two t, reading_fits x := by
  intro x hx
  exact h x ((List.perm_insertionSort _ t).subset (List.mem_of_mem_take hx))

theorem largest_two_length (t : List Int) (h : t ≠ []) :
    (largest_two t).length = 1 ∨ (largest_two t).length = 2 := by
  have hl : (t.insertionSort (fun a b => b ≤ a)).length = t.length :=
    (List.perm_insertionSort _ t).length_eq
  have hpos : 0 < t.length := List.length_pos.mpr h
  unfold largest_two
  rw [List.length_take, hl]
  omega

theorem int_add_zero_left (a : Int) (h : reading_fits a) : int_add 0 a = a := by
  unfold reading_fits at h
  unfold int_add
  rw [zero_add]
  exact wrap32_of_range a (by omega) (by omega)

theorem int_add_fits (a b : Int) (ha : reading_fits a) (hb : reading_fits b) :
    int_add a b = a + b := by
  unfold reading_fits at ha hb
  unfold int_add
  exact wrap32_of_range (a + b) (by omega) (by omega)

/-- The summing loop on a sorted array whose first entries fit. -/
theorem sum_first_two_exact (l : List Int) (h : ∀ x ∈ l.take 2, reading_fits x) :
    sum_first_two l = ((l.take 2).sum, ((l.take 2).length : Int)) := by
  unfold sum_first_two
  rcases l with _ | ⟨a, _ | ⟨b, l⟩⟩
  · rfl
  · have ha : reading_fits a := h a (by simp)
    simp [int_add_zero_left a ha, int_add_zero_one]
  · have ha : reading_fits a := h a (by simp)
    have hb : reading_fits b := h b (by simp)
    simp [int_add_zero_left a ha, int_add_fits a b ha hb, int_add_zero_one, int_add_one_one]

theorem tdiv_tdiv_thousand (s n : Int) (hn : n = 1 ∨ n = 2) :
    Int.tdiv (Int.tdiv s n) 1000 = Int.tdiv s (n * 1000) := by
  rcases hn with hn | hn <;> subst hn
  · rw [tdiv_of_pos _ 1 (by norm_num), tdiv_of_pos s (1 * 1000) (by norm_num)]
    split
    · rw [tdiv_of_pos _ _ (by norm_num), if_pos (by omega)]
      omega
    · rw [tdiv_of_pos _ _ (by norm_num)]
      split <;> omega
  · rw [tdiv_of_pos _ 2 (by norm_num), tdiv_of_pos s (2 * 1000) (by norm_num)]
    split
    · rw [tdiv_of_pos _ _ (by norm_num), if_pos (by omega)]
      omega
    · rw [tdiv_of_pos _ _ (by norm_num)]
      split <;> omega

theorem tdiv_range (s n : Int) (hn : n = 1 ∨ n = 2 ∨ n = 1000)
    (h1 : -2147483648 ≤ s) (h2 : s ≤ 2147483647) :
    -2147483648 ≤ Int.tdiv s n ∧ Int.tdiv s n ≤ 2147483647 := by
  rcases hn with hn | hn | hn <;> subst hn <;> rw [tdiv_of_pos _ _ (by norm_num)] <;>
    split <;> omega

/-- On readings that fit, the source returns the mean of the `min(2, N)` largest
readings in whole degrees, rounded toward zero. -/
theorem sensors_average_exact (t : List Int) (hne : t ≠ [])
    (h : ∀ x ∈ t, reading_fits x) : sensors_average t = trunc_mean_spec t := by
  have hq := qsort_exact t h
  have hfit := largest_two_fits t h
  have hlen := largest_two_length t hne
  have hsum := sum_first_two_exact (t.insertionSort (fun a b => b ≤ a)) hfit
  have hs : -2147483648 ≤ (largest_two t).sum ∧ (largest_two t).sum ≤ 2147483647 := by
    generalize hl : largest_two t = l at hfit hlen
    match l, hfit, hlen with
    | [a], hfit, _ =>
      have ha := hfit a (by simp)
      unfold reading_fits at ha
      simp only [List.sum_cons, List.sum_nil]
      omega
    | [a, b], hfit, _ =>
      have ha := hfit a (by simp)
      have hb := hfit b (by simp)
      unfold reading_fits at ha hb
      simp only [List.sum_cons, List.sum_nil]
      omega
  have hn : ((largest_two t).length : Int) = 1 ∨ ((largest_two t).length : Int) = 2 := by
    omega
  unfold sensors_average trunc_mean_spec
  simp only [hq, hsum]
  show int_div (int_div (largest_two t).sum (largest_two t).length) 1000 = _
  have r1 := tdiv_range (largest_two t).sum (largest_two t).length
    (by omega) hs.1 hs.2
  have e1 : int_div (largest_two t).sum (largest_two t).length =
      Int.tdiv (largest_two t).sum (largest_two t).length := by
    unfold int_div
    exact wrap32_of_range _ r1.1 r1.2
  have r2 := tdiv_range _ 1000 (by omega) r1.1 r1.2
  rw [e1]
  unfold int_div
  rw [wrap32_of_range _ r2.1 r2.2]
  exact tdiv_tdiv_thousand _ _ hn

/-- The floor of the mean in whole degrees, as a quotient of integers. -/
theorem floor_mean_spec_eq (t : List Int) :
    floor_mean_spec t = (largest_two t).sum / (((largest_two t).length : Int) * 1000) := by
  unfold floor_mean_spec
  rw [div_div]
  have h := Rat.floor_intCast_div_natCast (largest_two t).sum ((largest_two t).length * 1000)
  simp only [Nat.cast_mul, Nat.cast_ofNat] at h
  exact h

theorem largest_two_sum_nonneg (t : List Int) (h : ∀ x ∈ t, 0 ≤ x) :
    0 ≤ (largest_two t).sum := by
  apply List.sum_nonneg
  intro x hx
  exact h x ((List.perm_insertionSort _ t).subset (List.mem_of_mem_take hx))

/-- C3, as stated, fails: a single reading of -1500 millidegrees gives -1 where
the floor of the mean is -2 (C division rounds toward zero), and two readings of
2000000000 millidegrees give -147483 where the floor of the mean is 2000000
(their sum leaves the range of `int`). -/
theorem sensors_average_not_floor :
    sensors_average [-1500] = -1 ∧ floor_mean_spec [-1500] = -2 ∧
      sensors_average [2000000000, 2000000000] = -147483 ∧
      floor_mean_spec [2000000000, 2000000000] = 2000000 := by
  refine ⟨by decide, ?_, by decide, ?_⟩
  · have e : largest_two [-1500] = [-1500] := by decide
    unfold floor_mean_spec
    rw [e, Int.floor_eq_iff]
    norm_num
  · have e : largest_two [2000000000, 2000000000] = [2000000000, 2000000000] := by decide
    unfold floor_mean_spec
    rw [e, Int.floor_eq_iff]
    norm_num

/-- C3, amended: for every non-empty sequence of readings, in any order and of
any sign, each between -1073741824 and 1073741823 millidegrees, the aggregation
returns the arithmetic mean of the `min(2, N)` largest readings in whole degrees
rounded toward zero; this is the floor of that mean when the sum of those
readings is not negative, in particular when no reading is negative; for `N = 1`
it is the single reading in whole degrees, rounded toward zero; and the readings
70000, 75000, 60000 give 72. -/
theorem sensors_average_spec (t : List Int) (hne : t ≠ [])
    (h : ∀ x ∈ t, reading_fits x) :
    sensors_average t = trunc_mean_spec t ∧
      (0 ≤ (largest_two t).sum → sensors_average t = floor_mean_spec t) ∧
      ((∀ x ∈ t, 0 ≤ x) → sensors_average t = floor_mean_spec t) ∧
      (∀ x, t = [x] → sensors_average t = Int.tdiv x 1000) ∧
      sensors_average [70000, 75000, 60000] = 72 := by
  have he := sensors_average_exact t hne h
  have hfloor : 0 ≤ (largest_two t).sum → sensors_average t = floor_mean_spec t := by
    intro hs
    rw [he, floor_mean_spec_eq]
    unfold trunc_mean_spec
    exact Int.tdiv_eq_ediv hs (by positivity)
  refine ⟨he, hfloor, fun hpos => hfloor (largest_two_sum_nonneg t hpos), ?_, by decide⟩
  intro x hx
  subst hx
  rw [he]
  unfold trunc_mean_spec
  have e : largest_two [x] = [x] := rfl
  rw [e]
  simp

/-- Witness of C3, amended, on three readings of mixed sign. -/
theorem sensors_average_spec_witness :
    sensors_average [70000, -3000, 75500] = trunc_mean_spec [70000, -3000, 75500] ∧
      sensors_average [70000, -3000, 75500] = 72 :=
  ⟨(sensors_average_spec [70000, -3000, 75500] (by decide)
      (by unfold reading_fits; decide)).1, by decide⟩

/-! ## Start-up and shutdown: claims C7 and C8 -/

/-- The manual-mode writer goes through the fans 1, 2, 3, 4 in order: it writes
`value` to `fanX_manual` where the file opens and logs a warning where not. -/
theorem set_fans_manual_events (w : Path → Bool) (value : Int) :
    set_fans_manual w value =
      [1, 2, 3, 4].map fun fan =>
        if w (Path.fan_manual fan) then Event.fprintf (Path.fan_manual fan) value
        else Event.syslog_warning (Path.fan_manual fan) := rfl

/-- Once `exit` has run the process does nothing more. -/
theorem main_stopped (env : Env) (n : Nat) (h : (main env n).2 = none) :
    ∀ m, n ≤ m → main env m = main env n := by
  intro m hm
  induction m with
  | zero =>
    have e : n = 0 := by omega
    rw [e]
  | succ m ih =>
    by_cases hn : n = m + 1
    · rw [hn]
    · have ih2 := ih (by omega)
      have h2 : (main env m).2 = none := by rw [ih2]; exact h
      rw [← ih2]
      generalize hr : main env m = r at h2
      obtain ⟨tr, st⟩ := r
      simp only at h2
      subst h2
      simp only [main, hr]

theorem get_sensors_temp_error (env : Env) (k : Nat) (p : Path)
    (h : read_sensors (env.fopen_r k) SENSORS = .error p) :
    get_sensors_temp env k =
      .error (Event.syslog_err p :: clean_exit_with_status (env.fopen_w k) EXIT_FAILURE) := by
  simp only [get_sensors_temp, h]

theorem read_sensors_fail (r : Int → Option Int) (sensor : Int) (hs : sensor ∈ SENSORS)
    (h : r sensor = none) :
    read_sensors r SENSORS = .error (Path.temp_input sensor) := by
  have e : sensor = 22 := by simpa [SENSORS] using hs
  subst e
  simp only [SENSORS, read_sensors, h]

/-- C7, as stated, fails: without the `applesmc` directory the sensor cannot be
read, and the program exits with `EXIT_FAILURE` without having written 0 to the
`fanX_manual` of any fan, because those files cannot be opened either. -/
theorem sensor_failure_without_write :
    env_module_missing.fopen_r 0 22 = none ∧
      main env_module_missing 1 =
        ([Event.syslog_warning (Path.fan_manual 1), Event.syslog_warning (Path.fan_manual 2),
          Event.syslog_warning (Path.fan_manual 3), Event.syslog_warning (Path.fan_manual 4),
          Event.syslog_err (Path.temp_input 22),
          Event.syslog_warning (Path.fan_manual 1), Event.syslog_warning (Path.fan_manual 2),
          Event.syslog_warning (Path.fan_manual 3), Event.syslog_warning (Path.fan_manual 4),
          Event.syslog_notice, Event.unlink_pidfile, Event.exit EXIT_FAILURE], none) ∧
      Event.fprintf (Path.fan_manual 1) 0 ∉ (main env_module_missing 1).1 := by
  decide

/-- C7, amended: on every run, whenever a configured sensor cannot be read, at
start-up or in iteration `n + 1` of the loop, the program logs the error and
runs `clean_exit_with_status(EXIT_FAILURE)`: the manual-mode writer goes through
every controlled fan, writing 0 to `fanX_manual` where the file can be opened and
logging a warning where it cannot, and the process exits with `EXIT_FAILURE`;
nothing follows, in particular no fan-speed write. -/
theorem sensor_failure_shutdown (env : Env) (sensor : Int) (hs : sensor ∈ SENSORS)
    (m : Nat) :
    (env.fopen_r 0 sensor = none →
        main env m =
          (set_fans_manual (env.fopen_w 0) 0 ++ Event.syslog_err (Path.temp_input sensor) ::
            clean_exit_with_status (env.fopen_w 0) EXIT_FAILURE, none)) ∧
      (∀ n tr s, main env n = (tr, some s) → env.fopen_r (n + 1) sensor = none → n + 1 ≤ m →
        main env m =
          (tr ++ Event.sd_notify :: Event.syslog_err (Path.temp_input sensor) ::
            clean_exit_with_status (env.fopen_w (n + 1)) EXIT_FAILURE, none)) ∧
      (∀ w : Path → Bool, clean_exit_with_status w EXIT_FAILURE =
        ([1, 2, 3, 4].map fun fan =>
          if w (Path.fan_manual fan) then Event.fprintf (Path.fan_manual fan) 0
          else Event.syslog_warning (Path.fan_manual fan)) ++
        [Event.syslog_notice, Event.unlink_pidfile, Event.exit 1]) := by
  refine ⟨fun hfail => ?_, fun n tr s hrun hfail hm => ?_, fun w => rfl⟩
  · have h0 : main env 0 =
        (set_fans_manual (env.fopen_w 0) 0 ++ Event.syslog_err (Path.temp_input sensor) ::
          clean_exit_with_status (env.fopen_w 0) EXIT_FAILURE, none) := by
      simp only [main, main_init,
        get_sensors_temp_error env 0 _ (read_sensors_fail _ sensor hs hfail)]
    rw [main_stopped env 0 (by rw [h0]) m (Nat.zero_le m), h0]
  · have h1 : main env (n + 1) =
        (tr ++ Event.sd_notify :: Event.syslog_err (Path.temp_input sensor) ::
          clean_exit_with_status (env.fopen_w (n + 1)) EXIT_FAILURE, none) := by
      simp only [main, hrun, main_iter,
        get_sensors_temp_error env (n + 1) _ (read_sensors_fail _ sensor hs hfail)]
    rw [main_stopped env (n + 1) (by rw [h1]) m hm, h1]

/-- Witness of C7, amended: the sensor is lost at the first poll of the loop. -/
theorem sensor_failure_shutdown_witness :
    main env_sensor_lost 5 =
      ((main env_sensor_lost 0).1 ++
        [Event.sd_notify, Event.syslog_err (Path.temp_input 22),
          Event.fprintf (Path.fan_manual 1) 0, Event.fprintf (Path.fan_manual 2) 0,
          Event.fprintf (Path.fan_manual 3) 0, Event.fprintf (Path.fan_manual 4) 0,
          Event.syslog_notice, Event.unlink_pidfile, Event.exit 1], none) :=
  (sensor_failure_shutdown env_sensor_lost 22 (by decide) 5).2.1 0
    (main env_sensor_lost 0).1 (loop_init 71) (by decide) (by decide) (by decide)

theorem set_fans_manual_zero_ok (w : Path → Bool) :
    (set_fans_manual w 0).all manual_write_is_zero = true := by
  rw [set_fans_manual_events]
  simp only [List.map, List.all_cons, List.all_nil]
  split_ifs <;> rfl

theorem set_fans_min_ok (w : Path → Bool) (speed_step : Int) :
    (set_fans_min w speed_step).all manual_write_is_zero = true := by
  have e : set_fans_min w speed_step =
      [0, 1, 2, 3].map fun i =>
        if w (Path.fan_min (FANS.getD i 0)) then
          Event.fprintf (Path.fan_min (FANS.getD i 0)) (fan_speed i speed_step)
        else Event.syslog_warning (Path.fan_min (FANS.getD i 0)) := rfl
  rw [e]
  simp only [List.map, List.all_cons, List.all_nil]
  split_ifs <;> rfl

theorem clean_exit_ok (w : Path → Bool) (status : Int) :
    (clean_exit_with_status w status).all manual_write_is_zero = true := by
  unfold clean_exit_with_status
  rw [List.all_append, set_fans_manual_zero_ok]
  rfl

theorem main_init_ok (env : Env) : (main_init env).1.all manual_write_is_zero = true := by
  unfold main_init get_sensors_temp
  cases read_sensors (env.fopen_r 0) SENSORS with
  | error p =>
    simp only [List.all_append, List.all_cons, set_fans_manual_zero_ok, clean_exit_ok]
    rfl
  | ok t =>
    simp only [List.all_append, set_fans_manual_zero_ok, set_fans_min_ok]
    rfl

theorem main_iter_ok (env : Env) (k : Nat) (s : LoopState) :
    (main_iter env k s).1.all manual_write_is_zero = true := by
  unfold main_iter get_sensors_temp
  cases read_sensors (env.fopen_r k) SENSORS with
  | error p =>
    simp only [List.all_cons, clean_exit_ok]
    rfl
  | ok t =>
    simp only []
    cases (loop_body s (sensors_average t)).2 <;> cases env.nanosleep k <;>
      simp [List.all_append, List.all_cons, clean_exit_ok, set_fans_min_ok,
        manual_write_is_zero]

theorem main_ok (env : Env) : ∀ n, (main env n).1.all manual_write_is_zero = true := by
  intro n
  induction n with
  | zero => exact main_init_ok env
  | succ n ih =>
    generalize hr : main env n = r at ih
    obtain ⟨tr, st⟩ := r
    cases st with
    | none =>
      simp only [main, hr]
      exact ih
    | some s =>
      simp only [main, hr, List.all_append, main_iter_ok, Bool.and_true]
      exact ih

theorem main_starts_with_manual (env : Env) :
    ∀ n, set_fans_manual (env.fopen_w 0) 0 <+: (main env n).1 := by
  intro n
  induction n with
  | zero =>
    show _ <+: (main_init env).1
    unfold main_init
    cases get_sensors_temp env 0 <;> exact List.prefix_append _ _
  | succ n ih =>
    generalize hr : main env n = r at ih
    obtain ⟨tr, st⟩ := r
    cases st with
    | none =>
      simp only [main, hr]
      exact ih
    | some s =>
      simp only [main, hr]
      exact ih.trans (List.prefix_append _ _)

/-- C8, as stated, fails: with every file in place the first thing `main` does
is to write 0, not 1, to `fanX_manual` of every fan, before the first fan speed
(1120 for the reading 71) is applied and while the process keeps running; the
value 1 is not written. -/
theorem startup_writes_zero :
    main env_steady 0 =
        ([Event.fprintf (Path.fan_manual 1) 0, Event.fprintf (Path.fan_manual 2) 0,
          Event.fprintf (Path.fan_manual 3) 0, Event.fprintf (Path.fan_manual 4) 0,
          Event.fprintf (Path.fan_min 1) 1120, Event.fprintf (Path.fan_min 2) 1120,
          Event.fprintf (Path.fan_min 3) 1120, Event.fprintf (Path.fan_min 4) 1120],
          some (loop_init 71)) ∧
      Event.fprintf (Path.fan_manual 1) 1 ∉ (main env_steady 0).1 := by
  decide

/-- A sensor poll either stops the process through the shutdown routine with
`EXIT_FAILURE`, or returns the aggregate of the readings. -/
theorem get_sensors_temp_cases (env : Env) (k : Nat) :
    (∃ p, get_sensors_temp env k =
        .error (Event.syslog_err p :: clean_exit_with_status (env.fopen_w k) EXIT_FAILURE)) ∨
      (∃ r, get_sensors_temp env k = .ok (sensors_average r)) := by
  unfold get_sensors_temp
  cases read_sensors (env.fopen_r k) SENSORS with
  | error p => exact Or.inl ⟨p, rfl⟩
  | ok r => exact Or.inr ⟨r, rfl⟩

/-- An iteration that ends the process ends with the shutdown routine. -/
theorem main_iter_exit (env : Env) (k : Nat) (s : LoopState)
    (h : (main_iter env k s).2 = none) :
    ∃ pre status, (main_iter env k s).1 = pre ++ clean_exit_with_status (env.fopen_w k) status ∧
      (status = EXIT_SUCCESS ∨ status = EXIT_FAILURE) := by
  rcases get_sensors_temp_cases env k with ⟨p, hp⟩ | ⟨r, hr⟩
  · refine ⟨[Event.sd_notify, Event.syslog_err p], EXIT_FAILURE, ?_, Or.inr rfl⟩
    simp only [main_iter, hp]
    rfl
  · cases hs : env.nanosleep k with
    | elapsed =>
      simp only [main_iter, hr, hs] at h
      cases h
    | failed =>
      refine ⟨Event.sd_notify ::
        (match (loop_body s (sensors_average r)).2 with
         | some step =>
           set_fans_min (env.fopen_w k) step ++ [Event.syslog_info step (sensors_average r)]
         | none => []), EXIT_FAILURE, ?_, Or.inr rfl⟩
      simp only [main_iter, hr, hs]
    | terminated =>
      refine ⟨Event.sd_notify ::
        (match (loop_body s (sensors_average r)).2 with
         | some step =>
           set_fans_min (env.fopen_w k) step ++ [Event.syslog_info step (sensors_average r)]
         | none => []), EXIT_SUCCESS, ?_, Or.inl rfl⟩
      simp only [main_iter, hr, hs]

/-- Whenever the process has exited, the last thing it did was the shutdown
routine. -/
theorem main_exit (env : Env) : ∀ n, (main env n).2 = none →
    ∃ pre k status, (main env n).1 = pre ++ clean_exit_with_status (env.fopen_w k) status ∧
      (status = EXIT_SUCCESS ∨ status = EXIT_FAILURE) := by
  intro n
  induction n with
  | zero =>
    intro h
    rcases get_sensors_temp_cases env 0 with ⟨p, hp⟩ | ⟨r, hr⟩
    · refine ⟨set_fans_manual (env.fopen_w 0) 0 ++ [Event.syslog_err p], 0, EXIT_FAILURE, ?_,
        Or.inr rfl⟩
      simp only [main, main_init, hp, List.append_assoc, List.singleton_append]
    · simp only [main, main_init, hr] at h
      cases h
  | succ n ih =>
    intro h
    generalize hm : main env n = m at ih h
    obtain ⟨tr, st⟩ := m
    cases st with
    | none =>
      simp only [main, hm] at h ⊢
      exact ih rfl
    | some s =>
      simp only [main, hm] at h ⊢
      obtain ⟨pre, status, he, hst⟩ := main_iter_exit env (n + 1) s h
      exact ⟨tr ++ pre, n + 1, status, by rw [he, List.append_assoc], hst⟩

/-- How an iteration ends when its poll sleep ends in a termination signal or
in an error. -/
theorem main_sleep_exit (env : Env) (n : Nat) (tr : List Event) (s : LoopState) (t : Int)
    (hrun : main env n = (tr, some s)) (hok : get_sensors_temp env (n + 1) = .ok t) :
    (env.nanosleep (n + 1) = .terminated → ∃ ev, main env (n + 1) =
        (tr ++ ev ++ clean_exit_with_status (env.fopen_w (n + 1)) EXIT_SUCCESS, none)) ∧
      (env.nanosleep (n + 1) = .failed → ∃ ev, main env (n + 1) =
        (tr ++ ev ++ clean_exit_with_status (env.fopen_w (n + 1)) EXIT_FAILURE, none)) := by
  constructor
  · intro hs
    refine ⟨Event.sd_notify ::
      (match (loop_body s t).2 with
       | some step => set_fans_min (env.fopen_w (n + 1)) step ++ [Event.syslog_info step t]
       | none => []), ?_⟩
    simp only [main, hrun, main_iter, hok, hs, List.append_assoc]
  · intro hs
    refine ⟨Event.sd_notify ::
      (match (loop_body s t).2 with
       | some step => set_fans_min (env.fopen_w (n + 1)) step ++ [Event.syslog_info step t]
       | none => []), ?_⟩
    simp only [main, hrun, main_iter, hok, hs, List.append_assoc]

/-- C8, amended: at start-up, before the first fan speed is applied, `main`
calls the manual-mode writer with the value 0 (automatic control): every run
begins with 0 being written to `fanX_manual` of every controlled fan whose file
can be opened (a warning is logged for the others); whenever the process exits,
on a termination signal with `EXIT_SUCCESS`, on a failed sleep or a failed
sensor read with `EXIT_FAILURE`, the last thing it does before `exit` is the
same writer with 0 again; and no value other than 0, so never 1, is written to a
`fanX_manual` at any point of any run. -/
theorem manual_mode_always_zero (env : Env) (n : Nat) (w : Path → Bool) :
    set_fans_manual (env.fopen_w 0) 0 <+: (main env n).1 ∧
      set_fans_manual w 0 =
        ([1, 2, 3, 4].map fun fan =>
          if w (Path.fan_manual fan) then Event.fprintf (Path.fan_manual fan) 0
          else Event.syslog_warning (Path.fan_manual fan)) ∧
      ((main env n).2 = none → ∃ pre k status,
        (main env n).1 = pre ++ (set_fans_manual (env.fopen_w k) 0 ++
          [Event.syslog_notice, Event.unlink_pidfile, Event.exit status]) ∧
        (status = EXIT_SUCCESS ∨ status = EXIT_FAILURE)) ∧
      (∀ tr s t, main env n = (tr, some s) → get_sensors_temp env (n + 1) = .ok t →
        env.nanosleep (n + 1) = .terminated → ∃ ev, main env (n + 1) =
          (tr ++ ev ++ (set_fans_manual (env.fopen_w (n + 1)) 0 ++
            [Event.syslog_notice, Event.unlink_pidfile, Event.exit EXIT_SUCCESS]), none)) ∧
      (∀ tr s t, main env n = (tr, some s) → get_sensors_temp env (n + 1) = .ok t →
        env.nanosleep (n + 1) = .failed → ∃ ev, main env (n + 1) =
          (tr ++ ev ++ (set_fans_manual (env.fopen_w (n + 1)) 0 ++
            [Event.syslog_notice, Event.unlink_pidfile, Event.exit EXIT_FAILURE]), none)) ∧
      (main env n).1.all manual_write_is_zero = true :=
  ⟨main_starts_with_manual env n, rfl, main_exit env n,
    fun tr s t hrun hok => (main_sleep_exit env n tr s t hrun hok).1,
    fun tr s t hrun hok => (main_sleep_exit env n tr s t hrun hok).2, main_ok env n⟩

/-- Witness of C8, amended: a termination signal during the first poll sleep. -/
theorem manual_mode_always_zero_witness :
    (main env_terminated 1).2 = none ∧
      ∃ pre k status, (main env_terminated 1).1 =
        pre ++ (set_fans_manual (env_terminated.fopen_w k) 0 ++
          [Event.syslog_notice, Event.unlink_pidfile, Event.exit status]) ∧
        (status = EXIT_SUCCESS ∨ status = EXIT_FAILURE) :=
  ⟨by decide, (manual_mode_always_zero env_terminated 1 (fun _ => true)).2.2.1 (by decide)⟩

/-! ## Suppression of redundant writes: claim C10 -/

theorem fan_min_events_append (a b : List Event) :
    fan_min_events (a ++ b) = fan_min_events a ++ fan_min_events b :=
  List.filter_append a b

theorem fan_min_events_set_fans_min (w : Path → Bool) (speed_step : Int) :
    fan_min_events (set_fans_min w speed_step) = set_fans_min w speed_step ∧
      set_fans_min w speed_step ≠ [] := by
  have e : set_fans_min w speed_step =
      [0, 1, 2, 3].map fun i =>
        if w (Path.fan_min (FANS.getD i 0)) then
          Event.fprintf (Path.fan_min (FANS.getD i 0)) (fan_speed i speed_step)
        else Event.syslog_warning (Path.fan_min (FANS.getD i 0)) := rfl
  rw [e]
  refine ⟨?_, by simp⟩
  simp only [List.map, fan_min_events]
  split_ifs <;> rfl

theorem fan_min_events_set_fans_manual (w : Path → Bool) (value : Int) :
    fan_min_events (set_fans_manual w value) = [] := by
  rw [set_fans_manual_events]
  simp only [List.map, fan_min_events]
  split_ifs <;> rfl

theorem fan_min_events_clean_exit (w : Path → Bool) (status : Int) :
    fan_min_events (clean_exit_with_status w status) = [] := by
  unfold clean_exit_with_status
  rw [fan_min_events_append, fan_min_events_set_fans_manual]
  rfl

theorem calls_events_concat (env : Env) (c : Nat × Int) : ∀ l : List (Nat × Int),
    calls_events env (l ++ [c]) = calls_events env l ++ set_fans_min (env.fopen_w c.1) c.2 := by
  intro l
  induction l with
  | nil => simp [calls_events]
  | cons d l ih => simp [calls_events, ih]

theorem alternating_concat (x : Int) : ∀ l : List Int, alternating l →
    (∀ y, l.getLast? = some y → y ≠ x) → alternating (l ++ [x]) := by
  intro l
  induction l with
  | nil => intro _ _; rfl
  | cons a l ih =>
    intro h hx
    cases l with
    | nil =>
      have hne : a ≠ x := hx a rfl
      simp [alternating, alternating_moves, hne]
    | cons b l =>
      obtain ⟨hab, hrest⟩ := (alternating_cons_cons a b l).mp h
      have h2 := ih hrest (fun y hy => hx y (by rw [List.getLast?_cons_cons]; exact hy))
      exact (alternating_cons_cons a b (l ++ [x])).mpr ⟨hab, h2⟩

theorem fan_min_events_sd_notify : fan_min_events [Event.sd_notify] = [] := rfl

theorem fan_min_events_syslog_err (p : Path) : fan_min_events [Event.syslog_err p] = [] := rfl

theorem fan_min_events_syslog_info (speed_step t : Int) :
    fan_min_events [Event.syslog_info speed_step t] = [] := rfl

/-- The events and the state of an iteration whose sensor poll succeeds, by the
call the loop body asks for and by the way the sleep ends. -/
theorem main_iter_ok_eq (env : Env) (k : Nat) (s : LoopState) (t : Int)
    (hok : get_sensors_temp env k = .ok t) :
    main_iter env k s =
      ([Event.sd_notify] ++
        (match (loop_body s t).2 with
         | some step => set_fans_min (env.fopen_w k) step ++ [Event.syslog_info step t]
         | none => []) ++
        (match env.nanosleep k with
         | .elapsed => []
         | .failed => clean_exit_with_status (env.fopen_w k) EXIT_FAILURE
         | .terminated => clean_exit_with_status (env.fopen_w k) EXIT_SUCCESS),
       match env.nanosleep k with
       | .elapsed => some (loop_body s t).1
       | .failed => none
       | .terminated => none) := by
  cases hs : env.nanosleep k <;>
    simp only [main_iter, hok, hs, List.append_nil, List.singleton_append, List.cons_append,
      List.nil_append]

/-- The fan-speed writes of one iteration whose sensor poll succeeds, and the
state it leaves when the process goes on. -/
theorem main_iter_calls (env : Env) (k : Nat) (s : LoopState) (t : Int)
    (hok : get_sensors_temp env k = .ok t) :
    fan_min_events (main_iter env k s).1 =
        (if loop_fires s t && (speed_step_of t != s.old_speed_step) then
          set_fans_min (env.fopen_w k) (speed_step_of t) else []) ∧
      (∀ s2, (main_iter env k s).2 = some s2 → s2 = (loop_body s t).1) := by
  obtain ⟨hcall, _⟩ := loop_body_call s t
  have hm := (fan_min_events_set_fans_min (env.fopen_w k) (speed_step_of t)).1
  have hx := fan_min_events_clean_exit (env.fopen_w k)
  have hsleep : fan_min_events
      (match env.nanosleep k with
       | .elapsed => []
       | .failed => clean_exit_with_status (env.fopen_w k) EXIT_FAILURE
       | .terminated => clean_exit_with_status (env.fopen_w k) EXIT_SUCCESS) = [] := by
    cases env.nanosleep k
    · rfl
    · exact hx _
    · exact hx _
  rw [main_iter_ok_eq env k s t hok]
  constructor
  · simp only [fan_min_events_append, fan_min_events_sd_notify, hsleep, List.nil_append,
      List.append_nil]
    by_cases hc : (loop_fires s t && (speed_step_of t != s.old_speed_step)) = true
    · rw [if_pos hc] at hcall ⊢
      rw [hcall]
      simp only [fan_min_events_append, hm, fan_min_events_syslog_info, List.append_nil]
    · rw [if_neg hc] at hcall ⊢
      rw [hcall]
      rfl
  · intro s2 h2
    cases hs : env.nanosleep k <;> rw [hs] at h2 <;> simp only at h2
    · exact (Option.some.inj h2).symm
    · cases h2
    · cases h2

/-- An iteration whose sensor poll fails writes no fan speed and ends the
process. -/
theorem main_iter_no_calls (env : Env) (k : Nat) (s : LoopState) (stop : List Event)
    (herr : get_sensors_temp env k = .error stop) :
    fan_min_events (main_iter env k s).1 = [] ∧ (main_iter env k s).2 = none := by
  rcases get_sensors_temp_cases env k with ⟨p, hp⟩ | ⟨r, hr⟩
  · have e : main_iter env k s =
        ([Event.sd_notify] ++ ([Event.syslog_err p] ++
          clean_exit_with_status (env.fopen_w k) EXIT_FAILURE), none) := by
      simp only [main_iter, hp, List.singleton_append]
    rw [e]
    simp only [fan_min_events_append, fan_min_events_sd_notify, fan_min_events_syslog_err,
      fan_min_events_clean_exit, List.append_nil, and_self]
  · rw [hr] at herr
    cases herr

/-- Over every run: the fan-speed writes of the trace are those of the expected
calls, no two consecutive expected calls carry the same step, and while the
process runs `old_speed_step` is the step of the last of them. -/
theorem calls_invariant (env : Env) : ∀ n,
    fan_min_events (main env n).1 = calls_events env (expected_calls env n) ∧
      alternating ((expected_calls env n).map Prod.snd) ∧
      (∀ s, (main env n).2 = some s →
        ((expected_calls env n).map Prod.snd).getLast? = some s.old_speed_step) := by
  intro n
  induction n with
  | zero =>
    rcases get_sensors_temp_cases env 0 with ⟨p, hp⟩ | ⟨r, hr⟩
    · have e : main env 0 =
          (set_fans_manual (env.fopen_w 0) 0 ++ ([Event.syslog_err p] ++
            clean_exit_with_status (env.fopen_w 0) EXIT_FAILURE), none) := by
        simp only [main, main_init, hp, List.singleton_append]
      have ec : expected_calls env 0 = [] := by simp only [expected_calls, hp]
      rw [e, ec]
      refine ⟨?_, rfl, ?_⟩
      · simp only [fan_min_events_append, fan_min_events_set_fans_manual,
          fan_min_events_syslog_err, fan_min_events_clean_exit, List.append_nil]
        rfl
      · intro s hs
        cases hs
    · have e : main env 0 =
          (set_fans_manual (env.fopen_w 0) 0 ++
            set_fans_min (env.fopen_w 0) (speed_step_of (sensors_average r)),
            some (loop_init (sensors_average r))) := by
        simp only [main, main_init, hr]
      have ec : expected_calls env 0 = [(0, speed_step_of (sensors_average r))] := by
        simp only [expected_calls, hr]
      rw [e, ec]
      refine ⟨?_, rfl, ?_⟩
      · simp only [fan_min_events_append, fan_min_events_set_fans_manual,
          (fan_min_events_set_fans_min _ _).1, calls_events, List.nil_append, List.append_nil]
      · intro s hs
        have hs2 := Option.some.inj hs
        subst hs2
        rfl
  | succ n ih =>
    obtain ⟨ih1, ih2, ih3⟩ := ih
    generalize hm : main env n = m at ih1 ih3
    obtain ⟨tr, st⟩ := m
    simp only at ih1 ih3
    cases st with
    | none =>
      have e : main env (n + 1) = (tr, none) := by simp only [main, hm]
      have ec : expected_calls env (n + 1) = expected_calls env n := by
        simp only [expected_calls, hm]
      rw [e, ec]
      exact ⟨ih1, ih2, fun s hs => by cases hs⟩
    | some s =>
      have e : main env (n + 1) =
          (tr ++ (main_iter env (n + 1) s).1, (main_iter env (n + 1) s).2) := by
        simp only [main, hm]
      rw [e]
      simp only [fan_min_events_append, ih1]
      cases hg : get_sensors_temp env (n + 1) with
      | error stop =>
        obtain ⟨h1, h2⟩ := main_iter_no_calls env (n + 1) s stop hg
        have ec : expected_calls env (n + 1) = expected_calls env n := by
          simp only [expected_calls, hm, hg]
        rw [ec, h1, h2, List.append_nil]
        exact ⟨rfl, ih2, fun s hs => by cases hs⟩
      | ok t =>
        obtain ⟨h1, h2⟩ := main_iter_calls env (n + 1) s t hg
        obtain ⟨_, hold⟩ := loop_body_call s t
        have hlast := ih3 s rfl
        by_cases hc : (loop_fires s t && (speed_step_of t != s.old_speed_step)) = true
        · have ec : expected_calls env (n + 1) =
              expected_calls env n ++ [(n + 1, speed_step_of t)] := by
            simp only [expected_calls, hm, hg, hc, if_true]
          rw [if_pos hc] at h1 hold
          rw [ec, h1, calls_events_concat, List.map_append]
          refine ⟨rfl, ?_, ?_⟩
          · apply alternating_concat _ _ ih2
            intro y hy
            rw [hlast] at hy
            have hy2 := Option.some.inj hy
            subst hy2
            simp only [Bool.and_eq_true, bne_iff_ne] at hc
            exact fun e2 => hc.2 e2.symm
          · intro s2 hs2
            rw [h2 s2 hs2, hold]
            exact List.getLast?_concat _
        · have ec : expected_calls env (n + 1) = expected_calls env n := by
            simp only [expected_calls, hm, hg, hc]
            rfl
          rw [if_neg hc] at h1 hold
          rw [ec, h1, List.append_nil]
          refine ⟨rfl, ih2, ?_⟩
          intro s2 hs2
          rw [h2 s2 hs2, hold]
          exact hlast

theorem get_sensors_temp_step (env : Env) (k : Nat) (t : Int)
    (hok : get_sensors_temp env k = .ok t) :
    temperature_to_speed_step t = some (speed_step_of t) := by
  rcases get_sensors_temp_cases env k with ⟨p, hp⟩ | ⟨r, hr⟩
  · rw [hp] at hok
    cases hok
  · rw [hr] at hok
    have e : sensors_average r = t := Except.ok.inj hok
    rw [← e]
    exact speed_step_of_sensors r

/-- C10: in every run of `main`, on every tick whose sensor poll succeeds the
events of `set_fans_min` appear if and only if the debounce condition fires and
the step of the reading differs from `old_speed_step`, and then they are the
writes of that step; over the whole run the fan-speed writes of the trace are
exactly those of the unconditional initial call and of the calls on such ticks;
while the process runs `old_speed_step` equals the step of the most recent call;
and no two consecutive calls carry the same speed step. -/
theorem set_fans_min_calls (env : Env) (n : Nat) :
    (∀ tr s t, main env n = (tr, some s) → get_sensors_temp env (n + 1) = .ok t →
        ∃ step, temperature_to_speed_step t = some step ∧
          fan_min_events (main_iter env (n + 1) s).1 =
            (if loop_fires s t = true ∧ step ≠ s.old_speed_step then
              set_fans_min (env.fopen_w (n + 1)) step else []) ∧
          set_fans_min (env.fopen_w (n + 1)) step ≠ []) ∧
      fan_min_events (main env n).1 = calls_events env (expected_calls env n) ∧
      (∀ tr s, main env n = (tr, some s) →
        ((expected_calls env n).map Prod.snd).getLast? = some s.old_speed_step) ∧
      alternating ((expected_calls env n).map Prod.snd) := by
  obtain ⟨h1, h2, h3⟩ := calls_invariant env n
  refine ⟨?_, h1, fun tr s hrun => h3 s (by rw [hrun]), h2⟩
  intro tr s t _ hok
  refine ⟨speed_step_of t, get_sensors_temp_step env (n + 1) t hok, ?_,
    (fan_min_events_set_fans_min _ _).2⟩
  rw [(main_iter_calls env (n + 1) s t hok).1]
  by_cases hc : (loop_fires s t && (speed_step_of t != s.old_speed_step)) = true
  · rw [if_pos hc]
    simp only [Bool.and_eq_true, bne_iff_ne] at hc
    rw [if_pos ⟨hc.1, hc.2⟩]
  · rw [if_neg hc]
    simp only [Bool.and_eq_true, bne_iff_ne] at hc
    rw [if_neg hc]

/-- Witness of C10 on a run with rising readings 70, 71, 72, 73: the calls carry
the steps 0, 2 and 6, and `old_speed_step` is 6. -/
theorem set_fans_min_calls_witness :
    expected_calls env_rising 3 = [(0, 0), (1, 2), (3, 6)] ∧
      ((expected_calls env_rising 3).map Prod.snd).getLast? =
        some (LoopState.mk 73 6 6 0 0).old_speed_step :=
  ⟨by decide, (set_fans_min_calls env_rising 3).2.2.1 (main env_rising 3).1
    (LoopState.mk 73 6 6 0 0) (by decide)⟩

end SmcFanControl
